import Mathlib

/-!
Verification of the SNI TLS key resolution cache (`src/ext/tls/tls_key.rs`)
and the eszip virtual-filesystem overlay (`src/cli/standalone/eszip_vfs.rs`).

The Rust code is shallowly embedded as follows.

TLS side: the cooperative single-threaded runtime is modelled by explicit
state passing.  A `SysState` holds every piece of mutable state the two
halves (`TlsKeyResolver` / `TlsKeyLookup`) share:
  * `cache`      — `TlsKeyResolverInner::cache` (hostname → `TlsKeyState`);
  * `chanQueue`  — the in-flight contents of the `resolution_tx`/`rx`
                   unbounded mpsc channel, in FIFO order;
  * `pending`    — `TlsKeyLookup::pending`;
  * `chanVal`    — for each broadcast channel (identified by a `Nat` id,
                   allocated from `nextChan`) the value sent on it, if any;
                   a `broadcast::channel(1)` receives exactly one send here,
                   and every receiver subscribed to the channel observes it;
  * `tasks`      — the background completion tasks spawned by
                   `TlsKeyResolver::resolve` (line 184), each remembering its
                   hostname and the broadcast channel it awaits;
  * `sent`       — a ghost, append-only log of every hostname for which a
                   `(hostname, sender)` pair was ever sent on `resolution_tx`
                   (used to state the deduplication property).
Futures returned by `resolve` are pure values (`ResolveFut`); dropping one is
a no-op on the state, exactly as in the source, where the spawned task keeps
its own receiver.  `completeFut` gives the value a future resolves to once
the relevant broadcast channel has been fed.

Filesystem side: paths are component lists, `RealFs` delegation is reified
as a `RealFsCall` value inside `FsOutcome`, so "never delegates" is a
statement about the returned constructor.
-/

/-- Association-list lookup, first binding wins (models `HashMap::get`). -/
def lookupA {α β : Type} [DecidableEq α] : List (α × β) → α → Option β
  | [], _ => none
  | (k, v) :: rest, h => if k = h then some v else lookupA rest h

/-- Remove every binding of a key (used by insertion, models replacement). -/
def removeA {α β : Type} [DecidableEq α] : List (α × β) → α → List (α × β)
  | [], _ => []
  | (k, v) :: rest, h =>
    if k = h then removeA rest h else (k, v) :: removeA rest h

/-- Association-list insert-or-replace (models `HashMap::insert`). -/
def insertA {α β : Type} [DecidableEq α] (l : List (α × β)) (h : α) (v : β) :
    List (α × β) :=
  (h, v) :: removeA l h

/-- Number of occurrences of a hostname in the ghost send log. -/
def countS (l : List String) (h : String) : Nat :=
  (l.filter (fun x => x = h)).length

/-- A TLS certificate (`Certificate(Vec<u8>)`); the byte vector is modelled
by the string whose UTF-8 bytes it is. -/
structure Certificate where
  bytes : String
deriving DecidableEq, Repr

/-- A TLS private key (`PrivateKey(Vec<u8>)`), bytes modelled as for
`Certificate`. -/
structure PrivateKey where
  bytes : String
deriving DecidableEq, Repr

/-- A TLS certificate/private key pair (`TlsKey(Vec<Certificate>, PrivateKey)`). -/
structure TlsKey where
  certs : List Certificate
  privKey : PrivateKey
deriving DecidableEq, Repr

/-- `Result<TlsKey, E>` for both `ErrorType = Rc<AnyError>` and `AnyError`;
an error is modelled by its message string. -/
inductive KeyResult where
  | ok (k : TlsKey)
  | err (e : String)
deriving DecidableEq, Repr

/-- `res.map_err(|_| anyhow!("Failed"))`: the stored error is replaced by the
generic resolution failure. -/
def mapFailed : KeyResult → KeyResult
  | .ok k => .ok k
  | .err _ => .err "Failed"

/-- The two states of a cache entry (`enum TlsKeyState`); the
`broadcast::Receiver` of the `Resolving` state is identified by the id of
the channel it subscribes to (`resubscribe` yields the same id). -/
inductive TlsKeyState where
  | Resolving (chanId : Nat)
  | Resolved (res : KeyResult)
deriving DecidableEq, Repr

/-- Whole-system state shared by `TlsKeyResolver` and `TlsKeyLookup`; see the
module docstring for the field-by-field correspondence. -/
structure SysState where
  cache : List (String × TlsKeyState)
  chanQueue : List (String × Nat)
  pending : List (String × Nat)
  chanVal : List (Nat × KeyResult)
  tasks : List (String × Nat)
  sent : List String
  nextChan : Nat
deriving DecidableEq, Repr

/-- State produced by `new_resolver()`: all maps and channels empty. -/
def initState : SysState :=
  { cache := [], chanQueue := [], pending := [], chanVal := [], tasks := [],
    sent := [], nextChan := 0 }

/-- The future returned by `TlsKeyResolver::resolve`: `Either::Left` of an
already-ready result, or `Either::Right`, awaiting the spawned task, which
itself awaits broadcast channel `chanId`. -/
inductive ResolveFut where
  | ready (r : KeyResult)
  | sub (chanId : Nat)
deriving DecidableEq, Repr

/-- `TlsKeyResolver::resolve` (tls_key.rs lines 163-198), up to its first
suspension point: branch on the cache entry for `sni`; if absent, create a
`Resolving` entry, send `(sni, tx)` on the resolution channel (recorded both
in `chanQueue` and the ghost `sent` log) and subscribe; if `Resolving`,
resubscribe to the same channel; if `Resolved`, return a ready future with
the stored result (errors mapped to the generic failure).  In the first two
branches a background completion task is spawned (appended to `tasks`). -/
def TlsKeyResolver.resolve (s : SysState) (sni : String) :
    ResolveFut × SysState :=
  match lookupA s.cache sni with
  | none =>
    let c := s.nextChan
    (ResolveFut.sub c,
      { s with
        cache := insertA s.cache sni (TlsKeyState.Resolving c)
        chanQueue := s.chanQueue ++ [(sni, c)]
        sent := s.sent ++ [sni]
        nextChan := c + 1
        tasks := s.tasks ++ [(sni, c)] })
  | some (TlsKeyState.Resolving c) =>
    (ResolveFut.sub c, { s with tasks := s.tasks ++ [(sni, c)] })
  | some (TlsKeyState.Resolved res) =>
    (ResolveFut.ready (mapFailed res), s)

/-- `TlsKeyLookup::poll` (lines 215-224): receive the next queued
`(sni, sender)` pair and move it into `pending`.  An empty queue stands for
both "poll suspends" and "channel closed, yields `None`": the state is
unchanged. -/
def TlsKeyLookup.poll (s : SysState) : Option String × SysState :=
  match s.chanQueue with
  | [] => (none, s)
  | (sni, tx) :: rest =>
    (some sni,
      { s with chanQueue := rest, pending := insertA s.pending sni tx })

/-- `TlsKeyLookup::resolve` (lines 227-234): remove the pending sender for
`sni` and send the result on it.  `none` models the `.unwrap()` panic when
`sni` has no pending entry. -/
def TlsKeyLookup.resolve (s : SysState) (sni : String) (res : KeyResult) :
    Option SysState :=
  match lookupA s.pending sni with
  | none => none
  | some c =>
    some { s with
            pending := removeA s.pending sni
            chanVal := insertA s.chanVal c res }

/-- Body of the background completion task spawned at line 184: once the
broadcast channel `c` carries a value (`recv.recv().await`), write
`Resolved` into the cache unless someone beat us to it.  When the channel
has no value yet the task is still suspended — the state is unchanged. -/
def runTask (s : SysState) (sni : String) (c : Nat) : SysState :=
  match lookupA s.chanVal c with
  | none => s
  | some res =>
    match lookupA s.cache sni with
    | none | some (TlsKeyState.Resolving _) =>
      { s with cache := insertA s.cache sni (TlsKeyState.Resolved res) }
    | some (TlsKeyState.Resolved _) => s

/-- The value a `resolve` future completes with, if available: ready futures
carry their value; a subscription completes with the channel's value mapped
through the generic-failure translation (`handle.await` of the task, whose
return is `res.map_err(|_| anyhow!("Failed"))`). -/
def completeFut (s : SysState) (f : ResolveFut) : Option KeyResult :=
  match f with
  | .ready r => some r
  | .sub c =>
    match lookupA s.chanVal c with
    | none => none
    | some res => some (mapFailed res)

/-- Apply `resolve` for the same hostname `n` times in sequence, collecting
the returned futures. -/
def resolveN (s : SysState) (h : String) : Nat → List ResolveFut × SysState
  | 0 => ([], s)
  | n + 1 =>
    let p := TlsKeyResolver.resolve s h
    let q := resolveN p.2 h n
    (p.1 :: q.1, q.2)

/-- One atomic step of the cooperative system: a `resolve` call, a `poll`,
an answer from the driving loop (`TlsKeyLookup::resolve`), or running one of
the spawned background completion tasks. -/
inductive Op where
  | resolveOp (sni : String)
  | pollOp
  | answerOp (sni : String) (res : KeyResult)
  | runTaskOp (i : Nat)
deriving DecidableEq, Repr

/-- Interpret one operation.  A panicking `answerOp` aborts the process; as
it mutates nothing before the panic, it is modelled as leaving the state
unchanged.  `runTaskOp i` runs the `i`-th spawned task (a task whose channel
has not fired, or an out-of-range index, is a no-op; a completed task run
again hits the `Resolved` no-op branch). -/
def step (s : SysState) : Op → SysState
  | .resolveOp sni => (TlsKeyResolver.resolve s sni).2
  | .pollOp => (TlsKeyLookup.poll s).2
  | .answerOp sni res =>
    match TlsKeyLookup.resolve s sni res with
    | some s' => s'
    | none => s
  | .runTaskOp i =>
    match s.tasks.get? i with
    | some p => runTask s p.1 p.2
    | none => s

/-- Run a sequence of operations. -/
def execOps (s : SysState) (ops : List Op) : SysState :=
  List.foldl step s ops

/-- Whether an operation is a `resolve` call for hostname `h`. -/
def opResolves : Op → String → Bool
  | .resolveOp sni, h => sni = h
  | _, _ => false

/-- Whether a trace contains a `resolve` call for hostname `h`. -/
def hasResolve (ops : List Op) (h : String) : Bool :=
  ops.any (fun op => opResolves op h)

/-- Whether the cache has an entry (of either state) for `h`. -/
def cacheHas (s : SysState) (h : String) : Bool :=
  (lookupA s.cache h).isSome

/-- The key-source variant (`enum TlsKeys`): no key, a static key, or a
dynamic resolver.  The `Resolver` payload (an `Rc` handle to the resolver
inner state) is modelled by an opaque identifier.  `Null` is the `#[default]`
variant. -/
inductive TlsKeys where
  | Null
  | Static (key : TlsKey)
  | Resolver (handle : Nat)
deriving DecidableEq, Repr

/-- One-shot holder (`TlsKeysHolder(RefCell<TlsKeys>)`). -/
structure TlsKeysHolder where
  held : TlsKeys
deriving DecidableEq, Repr

/-- `TlsKeysHolder::take`: `std::mem::take` swaps the held value for the
default (`TlsKeys::Null`) and returns it.  Modelled as returning both the
taken value and the post-state of the holder. -/
def TlsKeysHolder.take (h : TlsKeysHolder) : TlsKeys × TlsKeysHolder :=
  (h.held, ⟨TlsKeys.Null⟩)

/-- `impl From<TlsKeys> for TlsKeysHolder`. -/
def TlsKeysHolder.fromKeys (v : TlsKeys) : TlsKeysHolder :=
  ⟨v⟩

/-- `impl TryInto<Option<TlsKey>> for TlsKeys` (tls_key.rs lines 53-62):
`Null ↦ Ok(None)`, `Static(key) ↦ Ok(Some(key))`, `Resolver(_) ↦ Err(self)`
with the original value returned unchanged as the error. -/
def TlsKeys.tryIntoOption : TlsKeys → Except TlsKeys (Option TlsKey)
  | .Null => .ok none
  | .Static key => .ok (some key)
  | .Resolver h => .error (.Resolver h)

/-- Invariant tying the ghost send log to the cache: a hostname has been sent
upstream exactly once if it has a cache entry and never otherwise, and every
spawned background task is for a hostname that has a cache entry. -/
def SysInv (s : SysState) : Prop :=
  (∀ h : String, countS s.sent h = if cacheHas s h then 1 else 0) ∧
  (∀ p : String × Nat, p ∈ s.tasks → cacheHas s p.1 = true)

/-- The test key constructor (`tls_key_for_test` in the source's test module):
`TlsKey(vec![Certificate("{sni}-cert")], PrivateKey("{sni}-key"))`. -/
def tlsKeyForTest (sni : String) : TlsKey :=
  { certs := [{ bytes := sni ++ "-cert" }], privKey := { bytes := sni ++ "-key" } }

/-!
Embedding of `src/cli/standalone/eszip_vfs.rs`.
-/

/-- A filesystem path as its list of components (`std::path::Path`). -/
abbrev FsPath := List String

/-- `Path::starts_with`: component-wise prefix test of `root` against
`path`. -/
def pathStartsWith : FsPath → FsPath → Bool
  | _, [] => true
  | [], _ :: _ => false
  | p :: ps, r :: rs => decide (p = r) && pathStartsWith ps rs

/-- The `FsError` variants relevant to the overlay; other variants of the
runtime error enum are collapsed into `Io`. -/
inductive FsError where
  | Io (msg : String)
  | FileBusy
  | NotSupported
deriving DecidableEq, Repr

/-- `FsFileType` argument of `symlink`. -/
inductive FsFileType where
  | File
  | Directory
  | Junction
deriving DecidableEq, Repr

/-- Flags of `OpenOptions` (the access-check callback carries no data
relevant to the dispatch and is omitted). -/
structure OpenOptions where
  read : Bool
  write : Bool
  create : Bool
  truncate : Bool
  append : Bool
  create_new : Bool
deriving DecidableEq, Repr

/-- `EszipFileSystem` / `Inner`: the loaded eszip modules (specifier →
opaque module contents) and the virtual root path. -/
structure EszipFileSystem where
  files : List (String × String)
  root_path : FsPath
deriving DecidableEq, Repr

/-- `EszipFileSystem::is_path_within`: `path.starts_with(&self.0.root_path)`. -/
def EszipFileSystem.is_path_within (fs : EszipFileSystem) (path : FsPath) :
    Bool :=
  pathStartsWith path fs.root_path

/-- `EszipFileSystem::error_if_in_vfs`: `Err(FsError::NotSupported)` for a
path under the virtual root, `Ok(())` otherwise. -/
def EszipFileSystem.error_if_in_vfs (fs : EszipFileSystem) (path : FsPath) :
    Except FsError Unit :=
  if fs.is_path_within path then Except.error FsError.NotSupported
  else Except.ok ()

/-- A delegated call to `RealFs`, with the arguments it was forwarded. -/
inductive RealFsCall where
  | chdir (path : FsPath)
  | openFile (path : FsPath) (options : OpenOptions)
  | mkdir (path : FsPath) (recursive : Bool) (mode : Nat)
  | chmod (path : FsPath) (mode : Nat)
  | chown (path : FsPath) (uid : Option Nat) (gid : Option Nat)
  | remove (path : FsPath) (recursive : Bool)
  | copy_file (oldpath : FsPath) (newpath : FsPath)
  | cp (src : FsPath) (dst : FsPath)
  | stat (path : FsPath)
  | lstat (path : FsPath)
  | realpath (path : FsPath)
  | read_dir (path : FsPath)
  | rename (oldpath : FsPath) (newpath : FsPath)
  | link (oldpath : FsPath) (newpath : FsPath)
  | symlink (oldpath : FsPath) (newpath : FsPath)
      (file_type : Option FsFileType)
  | read_link (path : FsPath)
  | truncate (path : FsPath) (len : Nat)
  | utime (path : FsPath) (atime_secs : Int) (atime_nanos : Nat)
      (mtime_secs : Int) (mtime_nanos : Nat)
deriving DecidableEq, Repr

/-- Outcome of an overlay operation: an error produced by the overlay
itself, a delegation to the real filesystem (reified, since the real
filesystem is outside the program), or a value answered locally (only
`realpath` does this). -/
inductive FsOutcome (α : Type) where
  | err (e : FsError)
  | delegate (call : RealFsCall)
  | ok (v : α)
deriving DecidableEq, Repr

/-- `chdir`: shielded by `error_if_in_vfs`, then delegated. -/
def EszipFileSystem.chdir (fs : EszipFileSystem) (path : FsPath) :
    FsOutcome Unit :=
  match fs.error_if_in_vfs path with
  | .error e => .err e
  | .ok _ => .delegate (.chdir path)

/-- `open_sync`: unconditionally `Err(FsError::NotSupported)`. -/
def EszipFileSystem.open_sync (_fs : EszipFileSystem) (_path : FsPath)
    (_options : OpenOptions) : FsOutcome Unit :=
  .err .NotSupported

/-- `open_async`: `NotSupported` inside the vfs, otherwise delegated. -/
def EszipFileSystem.open_async (fs : EszipFileSystem) (path : FsPath)
    (options : OpenOptions) : FsOutcome Unit :=
  if fs.is_path_within path then .err .NotSupported
  else .delegate (.openFile path options)

/-- `mkdir_sync`. -/
def EszipFileSystem.mkdir_sync (fs : EszipFileSystem) (path : FsPath)
    (recursive : Bool) (mode : Nat) : FsOutcome Unit :=
  match fs.error_if_in_vfs path with
  | .error e => .err e
  | .ok _ => .delegate (.mkdir path recursive mode)

/-- `mkdir_async`. -/
def EszipFileSystem.mkdir_async (fs : EszipFileSystem) (path : FsPath)
    (recursive : Bool) (mode : Nat) : FsOutcome Unit :=
  match fs.error_if_in_vfs path with
  | .error e => .err e
  | .ok _ => .delegate (.mkdir path recursive mode)

/-- `chmod_sync`. -/
def EszipFileSystem.chmod_sync (fs : EszipFileSystem) (path : FsPath)
    (mode : Nat) : FsOutcome Unit :=
  match fs.error_if_in_vfs path with
  | .error e => .err e
  | .ok _ => .delegate (.chmod path mode)

/-- `chmod_async`. -/
def EszipFileSystem.chmod_async (fs : EszipFileSystem) (path : FsPath)
    (mode : Nat) : FsOutcome Unit :=
  match fs.error_if_in_vfs path with
  | .error e => .err e
  | .ok _ => .delegate (.chmod path mode)

/-- `chown_sync`. -/
def EszipFileSystem.chown_sync (fs : EszipFileSystem) (path : FsPath)
    (uid : Option Nat) (gid : Option Nat) : FsOutcome Unit :=
  match fs.error_if_in_vfs path with
  | .error e => .err e
  | .ok _ => .delegate (.chown path uid gid)

/-- `chown_async`. -/
def EszipFileSystem.chown_async (fs : EszipFileSystem) (path : FsPath)
    (uid : Option Nat) (gid : Option Nat) : FsOutcome Unit :=
  match fs.error_if_in_vfs path with
  | .error e => .err e
  | .ok _ => .delegate (.chown path uid gid)

/-- `remove_sync`. -/
def EszipFileSystem.remove_sync (fs : EszipFileSystem) (path : FsPath)
    (recursive : Bool) : FsOutcome Unit :=
  match fs.error_if_in_vfs path with
  | .error e => .err e
  | .ok _ => .delegate (.remove path recursive)

/-- `remove_async`. -/
def EszipFileSystem.remove_async (fs : EszipFileSystem) (path : FsPath)
    (recursive : Bool) : FsOutcome Unit :=
  match fs.error_if_in_vfs path with
  | .error e => .err e
  | .ok _ => .delegate (.remove path recursive)

/-- `copy_file_sync`: shields the destination via `error_if_in_vfs`, then
the source via `is_path_within`. -/
def EszipFileSystem.copy_file_sync (fs : EszipFileSystem)
    (oldpath newpath : FsPath) : FsOutcome Unit :=
  match fs.error_if_in_vfs newpath with
  | .error e => .err e
  | .ok _ =>
    if fs.is_path_within oldpath then .err .NotSupported
    else .delegate (.copy_file oldpath newpath)

/-- `copy_file_async`. -/
def EszipFileSystem.copy_file_async (fs : EszipFileSystem)
    (oldpath newpath : FsPath) : FsOutcome Unit :=
  match fs.error_if_in_vfs newpath with
  | .error e => .err e
  | .ok _ =>
    if fs.is_path_within oldpath then .err .NotSupported
    else .delegate (.copy_file oldpath newpath)

/-- `cp_sync`: only the destination is shielded; the source is forwarded
unchecked. -/
def EszipFileSystem.cp_sync (fs : EszipFileSystem) (src dst : FsPath) :
    FsOutcome Unit :=
  match fs.error_if_in_vfs dst with
  | .error e => .err e
  | .ok _ => .delegate (.cp src dst)

/-- `cp_async`: same shielding as `cp_sync`. -/
def EszipFileSystem.cp_async (fs : EszipFileSystem) (src dst : FsPath) :
    FsOutcome Unit :=
  match fs.error_if_in_vfs dst with
  | .error e => .err e
  | .ok _ => .delegate (.cp src dst)

/-- `stat_sync`. -/
def EszipFileSystem.stat_sync (fs : EszipFileSystem) (path : FsPath) :
    FsOutcome Unit :=
  if fs.is_path_within path then .err .NotSupported
  else .delegate (.stat path)

/-- `stat_async`. -/
def EszipFileSystem.stat_async (fs : EszipFileSystem) (path : FsPath) :
    FsOutcome Unit :=
  if fs.is_path_within path then .err .NotSupported
  else .delegate (.stat path)

/-- `lstat_sync`. -/
def EszipFileSystem.lstat_sync (fs : EszipFileSystem) (path : FsPath) :
    FsOutcome Unit :=
  if fs.is_path_within path then .err .NotSupported
  else .delegate (.lstat path)

/-- `lstat_async`. -/
def EszipFileSystem.lstat_async (fs : EszipFileSystem) (path : FsPath) :
    FsOutcome Unit :=
  if fs.is_path_within path then .err .NotSupported
  else .delegate (.lstat path)

/-- `realpath_sync`: a path inside the vfs is returned unchanged; others are
delegated. -/
def EszipFileSystem.realpath_sync (fs : EszipFileSystem) (path : FsPath) :
    FsOutcome FsPath :=
  if fs.is_path_within path then .ok path
  else .delegate (.realpath path)

/-- `realpath_async`. -/
def EszipFileSystem.realpath_async (fs : EszipFileSystem) (path : FsPath) :
    FsOutcome FsPath :=
  if fs.is_path_within path then .ok path
  else .delegate (.realpath path)

/-- `read_dir_sync`. -/
def EszipFileSystem.read_dir_sync (fs : EszipFileSystem) (path : FsPath) :
    FsOutcome Unit :=
  if fs.is_path_within path then .err .NotSupported
  else .delegate (.read_dir path)

/-- `read_dir_async`. -/
def EszipFileSystem.read_dir_async (fs : EszipFileSystem) (path : FsPath) :
    FsOutcome Unit :=
  if fs.is_path_within path then .err .NotSupported
  else .delegate (.read_dir path)

/-- `rename_sync`: both paths are shielded. -/
def EszipFileSystem.rename_sync (fs : EszipFileSystem)
    (oldpath newpath : FsPath) : FsOutcome Unit :=
  match fs.error_if_in_vfs oldpath with
  | .error e => .err e
  | .ok _ =>
    match fs.error_if_in_vfs newpath with
    | .error e => .err e
    | .ok _ => .delegate (.rename oldpath newpath)

/-- `rename_async`. -/
def EszipFileSystem.rename_async (fs : EszipFileSystem)
    (oldpath newpath : FsPath) : FsOutcome Unit :=
  match fs.error_if_in_vfs oldpath with
  | .error e => .err e
  | .ok _ =>
    match fs.error_if_in_vfs newpath with
    | .error e => .err e
    | .ok _ => .delegate (.rename oldpath newpath)

/-- `link_sync`: both paths are shielded. -/
def EszipFileSystem.link_sync (fs : EszipFileSystem)
    (oldpath newpath : FsPath) : FsOutcome Unit :=
  match fs.error_if_in_vfs oldpath with
  | .error e => .err e
  | .ok _ =>
    match fs.error_if_in_vfs newpath with
    | .error e => .err e
    | .ok _ => .delegate (.link oldpath newpath)

/-- `link_async`. -/
def EszipFileSystem.link_async (fs : EszipFileSystem)
    (oldpath newpath : FsPath) : FsOutcome Unit :=
  match fs.error_if_in_vfs oldpath with
  | .error e => .err e
  | .ok _ =>
    match fs.error_if_in_vfs newpath with
    | .error e => .err e
    | .ok _ => .delegate (.link oldpath newpath)

/-- `symlink_sync`: both paths are shielded. -/
def EszipFileSystem.symlink_sync (fs : EszipFileSystem)
    (oldpath newpath : FsPath) (file_type : Option FsFileType) :
    FsOutcome Unit :=
  match fs.error_if_in_vfs oldpath with
  | .error e => .err e
  | .ok _ =>
    match fs.error_if_in_vfs newpath with
    | .error e => .err e
    | .ok _ => .delegate (.symlink oldpath newpath file_type)

/-- `symlink_async`. -/
def EszipFileSystem.symlink_async (fs : EszipFileSystem)
    (oldpath newpath : FsPath) (file_type : Option FsFileType) :
    FsOutcome Unit :=
  match fs.error_if_in_vfs oldpath with
  | .error e => .err e
  | .ok _ =>
    match fs.error_if_in_vfs newpath with
    | .error e => .err e
    | .ok _ => .delegate (.symlink oldpath newpath file_type)

/-- `read_link_sync`. -/
def EszipFileSystem.read_link_sync (fs : EszipFileSystem) (path : FsPath) :
    FsOutcome Unit :=
  if fs.is_path_within path then .err .NotSupported
  else .delegate (.read_link path)

/-- `read_link_async`. -/
def EszipFileSystem.read_link_async (fs : EszipFileSystem) (path : FsPath) :
    FsOutcome Unit :=
  if fs.is_path_within path then .err .NotSupported
  else .delegate (.read_link path)

/-- `truncate_sync`. -/
def EszipFileSystem.truncate_sync (fs : EszipFileSystem) (path : FsPath)
    (len : Nat) : FsOutcome Unit :=
  match fs.error_if_in_vfs path with
  | .error e => .err e
  | .ok _ => .delegate (.truncate path len)

/-- `truncate_async`. -/
def EszipFileSystem.truncate_async (fs : EszipFileSystem) (path : FsPath)
    (len : Nat) : FsOutcome Unit :=
  match fs.error_if_in_vfs path with
  | .error e => .err e
  | .ok _ => .delegate (.truncate path len)

/-- `utime_sync`. -/
def EszipFileSystem.utime_sync (fs : EszipFileSystem) (path : FsPath)
    (atime_secs : Int) (atime_nanos : Nat) (mtime_secs : Int)
    (mtime_nanos : Nat) : FsOutcome Unit :=
  match fs.error_if_in_vfs path with
  | .error e => .err e
  | .ok _ => .delegate (.utime path atime_secs atime_nanos mtime_secs mtime_nanos)

/-- `utime_async`. -/
def EszipFileSystem.utime_async (fs : EszipFileSystem) (path : FsPath)
    (atime_secs : Int) (atime_nanos : Nat) (mtime_secs : Int)
    (mtime_nanos : Nat) : FsOutcome Unit :=
  match fs.error_if_in_vfs path with
  | .error e => .err e
  | .ok _ => .delegate (.utime path atime_secs atime_nanos mtime_secs mtime_nanos)

/-- A concrete overlay filesystem whose virtual root is `/root`. -/
def vfsFsExample : EszipFileSystem :=
  { files := [], root_path := ["root"] }

/-- A concrete key used to instantiate witness statements. -/
def kTest : TlsKey :=
  tlsKeyForTest "example.com"

/-- A concrete state whose `pending` map holds one entry, used to
instantiate witnesses. -/
def pendingState : SysState :=
  { initState with pending := [("example.com", 0)] }

/-- A concrete state whose cache holds a `Resolved` entry, used to
instantiate witnesses. -/
def resolvedState : SysState :=
  { initState with
    cache := [("example.com", TlsKeyState.Resolved (KeyResult.ok kTest))] }

/-!
Helper lemmas.
-/

theorem lookupA_insertA_self {α β : Type} [DecidableEq α]
    (l : List (α × β)) (k : α) (v : β) :
    lookupA (insertA l k v) k = some v := by
  simp [insertA, lookupA]

theorem lookupA_removeA {α β : Type} [DecidableEq α]
    (l : List (α × β)) (k h : α) (hne : k ≠ h) :
    lookupA (removeA l k) h = lookupA l h := by
  induction l with
  | nil => rfl
  | cons p rest ih =>
    obtain ⟨k', v'⟩ := p
    by_cases hp : k' = k
    · simp only [removeA, lookupA, hp, if_pos]
      rw [ih, if_neg hne]
    · by_cases hkh : k' = h
      · simp [removeA, lookupA, hp, hkh, Ne.symm hne]
      · rw [removeA, if_neg hp]
        simp only [lookupA, if_neg hkh]
        exact ih

theorem lookupA_insertA_ne {α β : Type} [DecidableEq α]
    (l : List (α × β)) (k h : α) (v : β) (hne : k ≠ h) :
    lookupA (insertA l k v) h = lookupA l h := by
  simp [insertA, lookupA, hne]
  exact lookupA_removeA l k h hne

theorem lookupA_insertA_ite {α β : Type} [DecidableEq α]
    (l : List (α × β)) (k h : α) (v : β) :
    lookupA (insertA l k v) h = if k = h then some v else lookupA l h := by
  by_cases hkh : k = h
  · subst hkh; simp [lookupA_insertA_self]
  · simp [hkh, lookupA_insertA_ne l k h v hkh]

theorem countS_append (l l' : List String) (h : String) :
    countS (l ++ l') h = countS l h + countS l' h := by
  simp [countS, List.filter_append]

theorem countS_snoc (l : List String) (x h : String) :
    countS (l ++ [x]) h = countS l h + (if x = h then 1 else 0) := by
  rw [countS_append]
  by_cases hx : x = h <;> simp [countS, hx]

theorem resolve_resolving_state (s : SysState) (h : String) (c : Nat)
    (hc : lookupA s.cache h = some (TlsKeyState.Resolving c)) :
    TlsKeyResolver.resolve s h =
      (ResolveFut.sub c, { s with tasks := s.tasks ++ [(h, c)] }) := by
  simp [TlsKeyResolver.resolve, hc]

theorem poll_cons (s : SysState) (sni : String) (c : Nat)
    (rest : List (String × Nat)) (hq : s.chanQueue = (sni, c) :: rest) :
    TlsKeyLookup.poll s =
      (some sni,
        { s with chanQueue := rest, pending := insertA s.pending sni c }) := by
  simp [TlsKeyLookup.poll, hq]

theorem lookup_resolve_eq (s : SysState) (sni : String) (res : KeyResult)
    (c : Nat) (hc : lookupA s.pending sni = some c) :
    TlsKeyLookup.resolve s sni res =
      some { s with pending := removeA s.pending sni,
                    chanVal := insertA s.chanVal c res } := by
  simp [TlsKeyLookup.resolve, hc]

/-!
Claim theorems.
-/

/-- C8: converting a `TlsKeys` value into `Option<TlsKey>` yields `Ok(None)`
for `Null`, `Ok(Some(key))` for `Static(key)`, and fails for the `Resolver`
variant with the original value returned unchanged as the error. -/
theorem tlsKeys_try_into_option_downgrade :
    TlsKeys.tryIntoOption TlsKeys.Null = Except.ok none ∧
    (∀ k : TlsKey,
      TlsKeys.tryIntoOption (TlsKeys.Static k) = Except.ok (some k)) ∧
    (∀ hd : Nat,
      TlsKeys.tryIntoOption (TlsKeys.Resolver hd) =
        Except.error (TlsKeys.Resolver hd)) :=
  ⟨rfl, fun _ => rfl, fun _ => rfl⟩

/-- C9: for every holder constructed from a value `v`, the first `take()`
returns `v` and leaves the `Null` default behind, and any `take()` performed
after a `take()` returns the `Null` default rather than an error. -/
theorem tls_keys_holder_take_once :
    ∀ v : TlsKeys,
      (TlsKeysHolder.fromKeys v).take = (v, ⟨TlsKeys.Null⟩) ∧
      ∀ h : TlsKeysHolder, (h.take.2).take.1 = TlsKeys.Null :=
  fun _ => ⟨rfl, fun _ => rfl⟩

/-- C6: `TlsKeyLookup::resolve(hostname, result)` panics (modelled by
`none`) iff the hostname has no entry in the pending map; when the hostname
is pending with sender `c`, the call succeeds, removes the hostname from the
pending map and sends the result on the broadcast sender `c`. -/
theorem lookup_resolve_pending_panic_iff (s : SysState) (sni : String)
    (res : KeyResult) :
    (TlsKeyLookup.resolve s sni res = none ↔ lookupA s.pending sni = none) ∧
    (∀ c : Nat, lookupA s.pending sni = some c →
      TlsKeyLookup.resolve s sni res =
        some { s with pending := removeA s.pending sni,
                      chanVal := insertA s.chanVal c res }) := by
  refine ⟨?_, ?_⟩
  · cases hc : lookupA s.pending sni with
    | none => simp [TlsKeyLookup.resolve, hc]
    | some c => simp [TlsKeyLookup.resolve, hc]
  · intro c hc
    exact lookup_resolve_eq s sni res c hc

/-- C6 witness: resolving the single pending hostname of `pendingState`
succeeds, removes it from the pending map, and records the result on
channel 0. -/
theorem lookup_resolve_pending_panic_iff_witness :
    TlsKeyLookup.resolve pendingState "example.com" (KeyResult.ok kTest) =
      some { pendingState with
              pending := removeA pendingState.pending "example.com",
              chanVal := insertA pendingState.chanVal 0 (KeyResult.ok kTest) } :=
  (lookup_resolve_pending_panic_iff pendingState "example.com"
    (KeyResult.ok kTest)).2 0 (by decide)

theorem resolved_preserved (s : SysState) (op : Op) (h : String)
    (r : KeyResult)
    (hres : lookupA s.cache h = some (TlsKeyState.Resolved r)) :
    lookupA (step s op).cache h = some (TlsKeyState.Resolved r) := by
  cases op with
  | resolveOp sni =>
    by_cases hsni : sni = h
    · subst hsni
      simp [step, TlsKeyResolver.resolve, hres]
    · cases hc : lookupA s.cache sni with
      | none =>
        simp [step, TlsKeyResolver.resolve, hc,
          lookupA_insertA_ne s.cache sni h _ hsni, hres]
      | some st =>
        cases st with
        | Resolving c => simp [step, TlsKeyResolver.resolve, hc, hres]
        | Resolved r' => simp [step, TlsKeyResolver.resolve, hc, hres]
  | pollOp =>
    cases hq : s.chanQueue with
    | nil => simp [step, TlsKeyLookup.poll, hq, hres]
    | cons p rest =>
      obtain ⟨sni, c⟩ := p
      simp [step, TlsKeyLookup.poll, hq, hres]
  | answerOp sni res =>
    cases hc : lookupA s.pending sni with
    | none => simp [step, TlsKeyLookup.resolve, hc, hres]
    | some c => simp [step, TlsKeyLookup.resolve, hc, hres]
  | runTaskOp i =>
    cases ht : s.tasks[i]? with
    | none => simp [step, ht, hres]
    | some p =>
      obtain ⟨sni, c⟩ := p
      cases hv : lookupA s.chanVal c with
      | none => simp [step, ht, runTask, hv, hres]
      | some res =>
        by_cases hsni : sni = h
        · subst hsni
          simp [step, ht, runTask, hv, hres]
        · cases hm : lookupA s.cache sni with
          | none =>
            simp [step, ht, runTask, hv, hm,
              lookupA_insertA_ne s.cache sni h _ hsni, hres]
          | some st =>
            cases st with
            | Resolving c' =>
              simp [step, ht, runTask, hv, hm,
                lookupA_insertA_ne s.cache sni h _ hsni, hres]
            | Resolved r' => simp [step, ht, runTask, hv, hm, hres]

theorem resolved_preserved_exec (ops : List Op) :
    ∀ (s : SysState) (h : String) (r : KeyResult),
      lookupA s.cache h = some (TlsKeyState.Resolved r) →
      lookupA (execOps s ops).cache h = some (TlsKeyState.Resolved r) := by
  induction ops with
  | nil => intro s h r hres; simpa [execOps] using hres
  | cons op ops ih =>
    intro s h r hres
    have h1 := resolved_preserved s op h r hres
    simpa [execOps] using ih (step s op) h r h1

/-- C4: whenever the cache entry for a hostname is `Resolved(r)`, a
`resolve()` call — now and after any further sequence of operations —
returns an already-complete future carrying a clone of the stored result
(success) or the generic `"Failed"` error (stored failure), and leaves the
state unchanged, so no new upstream request is sent. -/
theorem resolver_cache_replay (s : SysState) (h : String) (r : KeyResult)
    (hres : lookupA s.cache h = some (TlsKeyState.Resolved r)) :
    (∀ ops : List Op,
      (TlsKeyResolver.resolve (execOps s ops) h).1 =
        ResolveFut.ready (mapFailed r) ∧
      (TlsKeyResolver.resolve (execOps s ops) h).2 = execOps s ops) ∧
    (∀ k : TlsKey, mapFailed (KeyResult.ok k) = KeyResult.ok k) ∧
    (∀ e : String, mapFailed (KeyResult.err e) = KeyResult.err "Failed") := by
  refine ⟨?_, fun _ => rfl, fun _ => rfl⟩
  intro ops
  have h1 := resolved_preserved_exec ops s h r hres
  constructor <;> simp [TlsKeyResolver.resolve, h1]

/-- C4 witness: on a state whose cache maps `"example.com"` to a resolved
success, `resolve` returns an already-ready future with the stored key and
does not change the state. -/
theorem resolver_cache_replay_witness :
    (TlsKeyResolver.resolve (execOps resolvedState []) "example.com").1 =
      ResolveFut.ready (mapFailed (KeyResult.ok kTest)) :=
  ((resolver_cache_replay resolvedState "example.com" (KeyResult.ok kTest)
    (by decide)).1 []).1

/-- C5: a `Resolved` cache entry is terminal — a background completion task
that finds its hostname already `Resolved` leaves the whole state unchanged
(a no-op), and no sequence of operations ever changes or removes the
`Resolved` entry, so each entry transitions `Resolving → Resolved` at most
once. -/
theorem resolved_first_writer_wins (s : SysState) (h : String)
    (r : KeyResult)
    (hres : lookupA s.cache h = some (TlsKeyState.Resolved r)) :
    (∀ c : Nat, runTask s h c = s) ∧
    (∀ ops : List Op,
      lookupA (execOps s ops).cache h = some (TlsKeyState.Resolved r)) := by
  refine ⟨?_, fun ops => resolved_preserved_exec ops s h r hres⟩
  intro c
  cases hv : lookupA s.chanVal c with
  | none => simp [runTask, hv]
  | some res => simp [runTask, hv, hres]

/-- C5 witness: a completion task run against the already-resolved entry of
`resolvedState` is a no-op. -/
theorem resolved_first_writer_wins_witness :
    runTask resolvedState "example.com" 0 = resolvedState :=
  (resolved_first_writer_wins resolvedState "example.com"
    (KeyResult.ok kTest) (by decide)).1 0

/-- C3: dropping the future returned by `resolve()` is a no-op on the shared
state (nothing below mentions the returned future), yet the spawned
background task `(h, 0)` exists independently; once the lookup side answers
and the task runs, the cache holds `Resolved(r)`, and a later `resolve()`
for the same hostname completes immediately with the cached result and
appends nothing to the upstream send log. -/
theorem resolver_cancellation_safe (h : String) (r : KeyResult) :
    ((TlsKeyResolver.resolve initState h).2).tasks = [(h, 0)] ∧
    (TlsKeyLookup.poll ((TlsKeyResolver.resolve initState h).2)).1 = some h ∧
    ∃ s3 : SysState,
      TlsKeyLookup.resolve
        (TlsKeyLookup.poll ((TlsKeyResolver.resolve initState h).2)).2 h r =
        some s3 ∧
      lookupA (runTask s3 h 0).cache h = some (TlsKeyState.Resolved r) ∧
      (TlsKeyResolver.resolve (runTask s3 h 0) h).1 =
        ResolveFut.ready (mapFailed r) ∧
      ((TlsKeyResolver.resolve (runTask s3 h 0) h).2).sent =
        (runTask s3 h 0).sent := by
  have e1 : TlsKeyResolver.resolve initState h =
      (ResolveFut.sub 0,
        { cache := [(h, TlsKeyState.Resolving 0)], chanQueue := [(h, 0)],
          pending := [], chanVal := [], tasks := [(h, 0)], sent := [h],
          nextChan := 1 }) := by
    simp [TlsKeyResolver.resolve, initState, lookupA, insertA, removeA]
  rw [e1]
  have e2 : TlsKeyLookup.poll
      { cache := [(h, TlsKeyState.Resolving 0)], chanQueue := [(h, 0)],
        pending := [], chanVal := [], tasks := [(h, 0)], sent := [h],
        nextChan := 1 } =
      (some h,
        { cache := [(h, TlsKeyState.Resolving 0)], chanQueue := [],
          pending := [(h, 0)], chanVal := [], tasks := [(h, 0)], sent := [h],
          nextChan := 1 }) := by
    simp [TlsKeyLookup.poll, insertA, removeA]
  rw [e2]
  refine ⟨rfl, rfl, ?_⟩
  have e3 : TlsKeyLookup.resolve
      { cache := [(h, TlsKeyState.Resolving 0)], chanQueue := [],
        pending := [(h, 0)], chanVal := [], tasks := [(h, 0)], sent := [h],
        nextChan := 1 } h r =
      some { cache := [(h, TlsKeyState.Resolving 0)], chanQueue := [],
             pending := [], chanVal := [(0, r)], tasks := [(h, 0)],
             sent := [h], nextChan := 1 } := by
    simp [TlsKeyLookup.resolve, lookupA, insertA, removeA]
  rw [e3]
  refine ⟨_, rfl, ?_⟩
  have e4 : runTask
      { cache := [(h, TlsKeyState.Resolving 0)], chanQueue := [],
        pending := [], chanVal := [(0, r)], tasks := [(h, 0)], sent := [h],
        nextChan := 1 } h 0 =
      { cache := [(h, TlsKeyState.Resolved r)], chanQueue := [],
        pending := [], chanVal := [(0, r)], tasks := [(h, 0)], sent := [h],
        nextChan := 1 } := by
    simp [runTask, lookupA, insertA, removeA]
  rw [e4]
  refine ⟨by simp [lookupA], ?_, ?_⟩ <;>
    simp [TlsKeyResolver.resolve, lookupA]

/-- C7: with the driving loop answering each polled hostname `sni` with the
key derived from `sni`, two concurrent `resolve()` calls for
`"example1.com"` and `"example2.com"` each complete with the key derived
from their own hostname, the two keys being distinct. -/
theorem resolver_distinct_hostnames_independent :
    completeFut
      ((TlsKeyLookup.resolve
        (TlsKeyLookup.poll
          ((TlsKeyLookup.resolve
            (TlsKeyLookup.poll
              ((TlsKeyResolver.resolve
                ((TlsKeyResolver.resolve initState "example1.com").2)
                "example2.com").2)).2
            "example1.com"
            (KeyResult.ok (tlsKeyForTest "example1.com"))).getD initState)).2
        "example2.com"
        (KeyResult.ok (tlsKeyForTest "example2.com"))).getD initState)
      (TlsKeyResolver.resolve initState "example1.com").1 =
      some (KeyResult.ok (tlsKeyForTest "example1.com")) ∧
    completeFut
      ((TlsKeyLookup.resolve
        (TlsKeyLookup.poll
          ((TlsKeyLookup.resolve
            (TlsKeyLookup.poll
              ((TlsKeyResolver.resolve
                ((TlsKeyResolver.resolve initState "example1.com").2)
                "example2.com").2)).2
            "example1.com"
            (KeyResult.ok (tlsKeyForTest "example1.com"))).getD initState)).2
        "example2.com"
        (KeyResult.ok (tlsKeyForTest "example2.com"))).getD initState)
      (TlsKeyResolver.resolve
        ((TlsKeyResolver.resolve initState "example1.com").2)
        "example2.com").1 =
      some (KeyResult.ok (tlsKeyForTest "example2.com")) ∧
    tlsKeyForTest "example1.com" ≠ tlsKeyForTest "example2.com" := by
  refine ⟨by decide, by decide, by decide⟩

theorem resolveN_resolving (h : String) (c : Nat) :
    ∀ (n : Nat) (s : SysState),
      lookupA s.cache h = some (TlsKeyState.Resolving c) →
      (resolveN s h n).1 = List.replicate n (ResolveFut.sub c) ∧
      ((resolveN s h n).2).chanQueue = s.chanQueue := by
  intro n
  induction n with
  | zero => intro s _; simp [resolveN]
  | succ n ih =>
    intro s hc
    have e := resolve_resolving_state s h c hc
    have h2 : lookupA ({ s with tasks := s.tasks ++ [(h, c)] } : SysState).cache
        h = some (TlsKeyState.Resolving c) := hc
    have := ih { s with tasks := s.tasks ++ [(h, c)] } h2
    simp [resolveN, e, List.replicate_succ]
    exact this

/-- C2: starting from a fresh resolver, issue `n + 1` `resolve()` calls for
hostname `h`; once the lookup side polls and answers with `Ok k`, every one
of the returned futures completes with exactly that key. -/
theorem resolver_fanout_same_key (h : String) (k : TlsKey) (n : Nat) :
    ∃ s4 : SysState,
      TlsKeyLookup.resolve
        (TlsKeyLookup.poll ((resolveN initState h (n + 1)).2)).2 h
        (KeyResult.ok k) = some s4 ∧
      ∀ f ∈ (resolveN initState h (n + 1)).1,
        completeFut s4 f = some (KeyResult.ok k) := by
  have e1 : TlsKeyResolver.resolve initState h =
      (ResolveFut.sub 0,
        { cache := [(h, TlsKeyState.Resolving 0)], chanQueue := [(h, 0)],
          pending := [], chanVal := [], tasks := [(h, 0)], sent := [h],
          nextChan := 1 }) := by
    simp [TlsKeyResolver.resolve, initState, lookupA, insertA, removeA]
  have hc : lookupA
      ({ cache := [(h, TlsKeyState.Resolving 0)], chanQueue := [(h, 0)],
         pending := [], chanVal := [], tasks := [(h, 0)], sent := [h],
         nextChan := 1 } : SysState).cache h =
      some (TlsKeyState.Resolving 0) := by
    simp [lookupA]
  have hN := resolveN_resolving h 0 n _ hc
  have efuts : (resolveN initState h (n + 1)).1 =
      List.replicate (n + 1) (ResolveFut.sub 0) := by
    simp [resolveN, e1, List.replicate_succ, hN.1]
  have equeue : ((resolveN initState h (n + 1)).2).chanQueue = [(h, 0)] := by
    simp [resolveN, e1, hN.2]
  have epoll := poll_cons ((resolveN initState h (n + 1)).2) h 0 [] equeue
  have epend : lookupA
      ((TlsKeyLookup.poll ((resolveN initState h (n + 1)).2)).2).pending h =
      some 0 := by
    rw [epoll]
    exact lookupA_insertA_self _ h 0
  refine ⟨_, lookup_resolve_eq _ h (KeyResult.ok k) 0 epend, ?_⟩
  intro f hf
  rw [efuts] at hf
  have hf0 : f = ResolveFut.sub 0 := List.eq_of_mem_replicate hf
  subst hf0
  simp [completeFut, lookupA_insertA_self, mapFailed]

/-- C2 witness: two concurrent `resolve("example.com")` calls both complete
with the key the driving loop supplied. -/
theorem resolver_fanout_same_key_witness :
    ∃ s4 : SysState,
      TlsKeyLookup.resolve
        (TlsKeyLookup.poll ((resolveN initState "example.com" 2).2)).2
        "example.com" (KeyResult.ok kTest) = some s4 ∧
      ∀ f ∈ (resolveN initState "example.com" 2).1,
        completeFut s4 f = some (KeyResult.ok kTest) :=
  resolver_fanout_same_key "example.com" kTest 1

theorem step_cacheHas (s : SysState) (op : Op) (hs : SysInv s) (h : String) :
    cacheHas (step s op) h = (cacheHas s h || opResolves op h) := by
  cases op with
  | resolveOp sni =>
    cases hc : lookupA s.cache sni with
    | none =>
      simp only [step, TlsKeyResolver.resolve, hc, cacheHas, opResolves]
      rw [lookupA_insertA_ite]
      by_cases hsh : sni = h
      · subst hsh; simp
      · simp [hsh]
    | some st =>
      cases st with
      | Resolving c =>
        simp only [step, TlsKeyResolver.resolve, hc, cacheHas, opResolves]
        by_cases hsh : sni = h
        · subst hsh; simp [hc]
        · simp [hsh]
      | Resolved r =>
        simp only [step, TlsKeyResolver.resolve, hc, cacheHas, opResolves]
        by_cases hsh : sni = h
        · subst hsh; simp [hc]
        · simp [hsh]
  | pollOp =>
    cases hq : s.chanQueue with
    | nil => simp [step, TlsKeyLookup.poll, hq, cacheHas, opResolves]
    | cons p rest =>
      obtain ⟨sni, c⟩ := p
      simp [step, TlsKeyLookup.poll, hq, cacheHas, opResolves]
  | answerOp sni res =>
    cases hc : lookupA s.pending sni with
    | none => simp [step, TlsKeyLookup.resolve, hc, cacheHas, opResolves]
    | some c => simp [step, TlsKeyLookup.resolve, hc, cacheHas, opResolves]
  | runTaskOp i =>
    cases ht : s.tasks[i]? with
    | none => simp [step, ht, cacheHas, opResolves]
    | some p =>
      obtain ⟨sni, c⟩ := p
      have hmem : (sni, c) ∈ s.tasks := by
        apply List.get?_mem
        simpa [List.get?_eq_getElem?] using ht
      have htask : cacheHas s sni = true := hs.2 (sni, c) hmem
      cases hv : lookupA s.chanVal c with
      | none => simp [step, ht, runTask, hv, cacheHas, opResolves]
      | some res =>
        cases hm : lookupA s.cache sni with
        | none => simp [cacheHas, hm] at htask
        | some st =>
          cases st with
          | Resolving c' =>
            simp only [step, List.get?_eq_getElem?, ht, runTask, hv, hm,
              cacheHas, opResolves]
            rw [lookupA_insertA_ite]
            by_cases hsh : sni = h
            · subst hsh
              simp only [cacheHas] at htask
              simp [htask]
            · simp [hsh]
          | Resolved r => simp [step, ht, runTask, hv, hm, cacheHas, opResolves]

theorem step_sysInv (s : SysState) (op : Op) (hs : SysInv s) :
    SysInv (step s op) := by
  have hch := step_cacheHas s op hs
  constructor
  · intro h
    rw [hch h]
    cases op with
    | resolveOp sni =>
      cases hc : lookupA s.cache sni with
      | none =>
        have hcs : cacheHas s sni = false := by simp [cacheHas, hc]
        have hsent : (step s (Op.resolveOp sni)).sent = s.sent ++ [sni] := by
          simp [step, TlsKeyResolver.resolve, hc]
        rw [hsent, countS_snoc, hs.1 h]
        simp only [opResolves]
        by_cases hsh : sni = h
        · subst hsh; rw [hcs]; simp
        · simp [hsh]
      | some st =>
        have hsent : (step s (Op.resolveOp sni)).sent = s.sent := by
          cases st with
          | Resolving c => simp [step, TlsKeyResolver.resolve, hc]
          | Resolved r => simp [step, TlsKeyResolver.resolve, hc]
        rw [hsent, hs.1 h]
        simp only [opResolves]
        by_cases hsh : sni = h
        · subst hsh
          have : cacheHas s sni = true := by simp [cacheHas, hc]
          rw [this]; simp
        · simp [hsh]
    | pollOp =>
      have hsent : (step s Op.pollOp).sent = s.sent := by
        cases hq : s.chanQueue with
        | nil => simp [step, TlsKeyLookup.poll, hq]
        | cons p rest =>
          obtain ⟨sni, c⟩ := p
          simp [step, TlsKeyLookup.poll, hq]
      rw [hsent, hs.1 h]
      simp [opResolves]
    | answerOp sni res =>
      have hsent : (step s (Op.answerOp sni res)).sent = s.sent := by
        cases hc : lookupA s.pending sni with
        | none => simp [step, TlsKeyLookup.resolve, hc]
        | some c => simp [step, TlsKeyLookup.resolve, hc]
      rw [hsent, hs.1 h]
      simp [opResolves]
    | runTaskOp i =>
      have hsent : (step s (Op.runTaskOp i)).sent = s.sent := by
        cases ht : s.tasks[i]? with
        | none => simp [step, ht]
        | some p =>
          obtain ⟨sni, c⟩ := p
          cases hv : lookupA s.chanVal c with
          | none => simp [step, ht, runTask, hv]
          | some res =>
            cases hm : lookupA s.cache sni with
            | none => simp [step, ht, runTask, hv, hm]
            | some st =>
              cases st with
              | Resolving c' => simp [step, ht, runTask, hv, hm]
              | Resolved r => simp [step, ht, runTask, hv, hm]
      rw [hsent, hs.1 h]
      simp [opResolves]
  · intro p hp
    have htasks : (step s op).tasks = s.tasks ∨
        ∃ sni c, (step s op).tasks = s.tasks ++ [(sni, c)] ∧
          opResolves op sni = true := by
      cases op with
      | resolveOp sni =>
        cases hc : lookupA s.cache sni with
        | none =>
          right
          exact ⟨sni, s.nextChan, by simp [step, TlsKeyResolver.resolve, hc],
            by simp [opResolves]⟩
        | some st =>
          cases st with
          | Resolving c =>
            right
            exact ⟨sni, c, by simp [step, TlsKeyResolver.resolve, hc],
              by simp [opResolves]⟩
          | Resolved r =>
            left; simp [step, TlsKeyResolver.resolve, hc]
      | pollOp =>
        left
        cases hq : s.chanQueue with
        | nil => simp [step, TlsKeyLookup.poll, hq]
        | cons q rest =>
          obtain ⟨sni, c⟩ := q
          simp [step, TlsKeyLookup.poll, hq]
      | answerOp sni res =>
        left
        cases hc : lookupA s.pending sni with
        | none => simp [step, TlsKeyLookup.resolve, hc]
        | some c => simp [step, TlsKeyLookup.resolve, hc]
      | runTaskOp i =>
        left
        cases ht : s.tasks[i]? with
        | none => simp [step, ht]
        | some q =>
          obtain ⟨sni, c⟩ := q
          cases hv : lookupA s.chanVal c with
          | none => simp [step, ht, runTask, hv]
          | some res =>
            cases hm : lookupA s.cache sni with
            | none => simp [step, ht, runTask, hv, hm]
            | some st =>
              cases st with
              | Resolving c' => simp [step, ht, runTask, hv, hm]
              | Resolved r => simp [step, ht, runTask, hv, hm]
    rcases htasks with heq | ⟨sni, c, heq, hop⟩
    · rw [heq] at hp
      have := hs.2 p hp
      rw [hch p.1, this]
      simp
    · rw [heq] at hp
      rcases List.mem_append.mp hp with hmem | hnew
      · have := hs.2 p hmem
        rw [hch p.1, this]
        simp
      · have hpe : p = (sni, c) := by simpa using hnew
        subst hpe
        rw [hch, hop]
        simp

theorem exec_count (ops : List Op) :
    ∀ (s : SysState), SysInv s → ∀ h : String,
      countS (execOps s ops).sent h =
        if (hasResolve ops h || cacheHas s h) then 1 else 0 := by
  induction ops with
  | nil =>
    intro s hs h
    simpa [execOps, hasResolve] using hs.1 h
  | cons op ops ih =>
    intro s hs h
    have h1 := step_sysInv s op hs
    have h2 := ih (step s op) h1 h
    have h3 := step_cacheHas s op hs h
    have e : execOps s (op :: ops) = execOps (step s op) ops := by
      simp [execOps]
    rw [e, h2, h3]
    have e2 : hasResolve (op :: ops) h =
        (opResolves op h || hasResolve ops h) := by
      simp [hasResolve]
    rw [e2]
    have e3 : (hasResolve ops h || (cacheHas s h || opResolves op h)) =
        ((opResolves op h || hasResolve ops h) || cacheHas s h) := by
      cases opResolves op h <;> cases hasResolve ops h <;>
        cases cacheHas s h <;> rfl
    rw [e3]

/-- C1: starting from a fresh resolver, along any interleaving of `resolve`
calls, polls, answers and background-task completions, exactly one
`(hostname, sender)` request is ever sent on the resolution channel for a
hostname that some `resolve` call asked for, and none for any other
hostname: only the first call that finds the hostname absent from the cache
sends. -/
theorem resolver_dedup_single_send (ops : List Op) (h : String) :
    countS (execOps initState ops).sent h =
      if hasResolve ops h then 1 else 0 := by
  have hinv : SysInv initState := by
    constructor
    · intro h'; simp [initState, countS, cacheHas, lookupA]
    · intro p hp; simp [initState] at hp
  have := exec_count ops initState hinv h
  simpa [cacheHas, initState, lookupA] using this

/-- C10 counterexample: `["root", "a"]` starts with the configured root
`["root"]`, yet `cp_sync` (and `cp_async`) with that path as the source and
a destination outside the vfs does not return `NotSupported` — it delegates
the vfs path to the real filesystem, because only the destination is
checked. -/
theorem eszip_vfs_cp_src_not_shielded_cex :
    vfsFsExample.is_path_within ["root", "a"] = true ∧
    EszipFileSystem.cp_sync vfsFsExample ["root", "a"] ["outside"] =
      FsOutcome.delegate (RealFsCall.cp ["root", "a"] ["outside"]) ∧
    EszipFileSystem.cp_sync vfsFsExample ["root", "a"] ["outside"] ≠
      FsOutcome.err FsError.NotSupported ∧
    EszipFileSystem.cp_async vfsFsExample ["root", "a"] ["outside"] =
      FsOutcome.delegate (RealFsCall.cp ["root", "a"] ["outside"]) := by
  refine ⟨by decide, by decide, by decide, by decide⟩

/-- C10 (amended): for every path `p` under the configured root, every
overlay operation taking `p` returns `Err(FsError::NotSupported)` without
delegating `p` to the real filesystem — in either argument position for
`copy_file`, `rename`, `link` and `symlink` — with two exceptions:
`realpath_sync`/`realpath_async` return the path unchanged, and the *source*
argument of `cp_sync`/`cp_async` is not shielded (only the destination is
checked, as the counterexample shows). -/
theorem eszip_vfs_shielding_amended (fs : EszipFileSystem) (p q : FsPath)
    (hp : fs.is_path_within p = true) (opts : OpenOptions) (rec : Bool)
    (mode : Nat) (uid gid : Option Nat) (ft : Option FsFileType) (len : Nat)
    (as : Int) (an : Nat) (ms : Int) (mn : Nat) :
    EszipFileSystem.chdir fs p = FsOutcome.err FsError.NotSupported ∧
    EszipFileSystem.open_sync fs p opts = FsOutcome.err FsError.NotSupported ∧
    EszipFileSystem.open_async fs p opts =
      FsOutcome.err FsError.NotSupported ∧
    EszipFileSystem.mkdir_sync fs p rec mode =
      FsOutcome.err FsError.NotSupported ∧
    EszipFileSystem.mkdir_async fs p rec mode =
      FsOutcome.err FsError.NotSupported ∧
    EszipFileSystem.chmod_sync fs p mode =
      FsOutcome.err FsError.NotSupported ∧
    EszipFileSystem.chmod_async fs p mode =
      FsOutcome.err FsError.NotSupported ∧
    EszipFileSystem.chown_sync fs p uid gid =
      FsOutcome.err FsError.NotSupported ∧
    EszipFileSystem.chown_async fs p uid gid =
      FsOutcome.err FsError.NotSupported ∧
    EszipFileSystem.remove_sync fs p rec =
      FsOutcome.err FsError.NotSupported ∧
    EszipFileSystem.remove_async fs p rec =
      FsOutcome.err FsError.NotSupported ∧
    EszipFileSystem.copy_file_sync fs p q =
      FsOutcome.err FsError.NotSupported ∧
    EszipFileSystem.copy_file_sync fs q p =
      FsOutcome.err FsError.NotSupported ∧
    EszipFileSystem.copy_file_async fs p q =
      FsOutcome.err FsError.NotSupported ∧
    EszipFileSystem.copy_file_async fs q p =
      FsOutcome.err FsError.NotSupported ∧
    EszipFileSystem.cp_sync fs q p = FsOutcome.err FsError.NotSupported ∧
    EszipFileSystem.cp_async fs q p = FsOutcome.err FsError.NotSupported ∧
    EszipFileSystem.stat_sync fs p = FsOutcome.err FsError.NotSupported ∧
    EszipFileSystem.stat_async fs p = FsOutcome.err FsError.NotSupported ∧
    EszipFileSystem.lstat_sync fs p = FsOutcome.err FsError.NotSupported ∧
    EszipFileSystem.lstat_async fs p = FsOutcome.err FsError.NotSupported ∧
    EszipFileSystem.realpath_sync fs p = FsOutcome.ok p ∧
    EszipFileSystem.realpath_async fs p = FsOutcome.ok p ∧
    EszipFileSystem.read_dir_sync fs p = FsOutcome.err FsError.NotSupported ∧
    EszipFileSystem.read_dir_async fs p =
      FsOutcome.err FsError.NotSupported ∧
    EszipFileSystem.rename_sync fs p q =
      FsOutcome.err FsError.NotSupported ∧
    EszipFileSystem.rename_sync fs q p =
      FsOutcome.err FsError.NotSupported ∧
    EszipFileSystem.rename_async fs p q =
      FsOutcome.err FsError.NotSupported ∧
    EszipFileSystem.rename_async fs q p =
      FsOutcome.err FsError.NotSupported ∧
    EszipFileSystem.link_sync fs p q = FsOutcome.err FsError.NotSupported ∧
    EszipFileSystem.link_sync fs q p = FsOutcome.err FsError.NotSupported ∧
    EszipFileSystem.link_async fs p q = FsOutcome.err FsError.NotSupported ∧
    EszipFileSystem.link_async fs q p = FsOutcome.err FsError.NotSupported ∧
    EszipFileSystem.symlink_sync fs p q ft =
      FsOutcome.err FsError.NotSupported ∧
    EszipFileSystem.symlink_sync fs q p ft =
      FsOutcome.err FsError.NotSupported ∧
    EszipFileSystem.symlink_async fs p q ft =
      FsOutcome.err FsError.NotSupported ∧
    EszipFileSystem.symlink_async fs q p ft =
      FsOutcome.err FsError.NotSupported ∧
    EszipFileSystem.read_link_sync fs p =
      FsOutcome.err FsError.NotSupported ∧
    EszipFileSystem.read_link_async fs p =
      FsOutcome.err FsError.NotSupported ∧
    EszipFileSystem.truncate_sync fs p len =
      FsOutcome.err FsError.NotSupported ∧
    EszipFileSystem.truncate_async fs p len =
      FsOutcome.err FsError.NotSupported ∧
    EszipFileSystem.utime_sync fs p as an ms mn =
      FsOutcome.err FsError.NotSupported ∧
    EszipFileSystem.utime_async fs p as an ms mn =
      FsOutcome.err FsError.NotSupported := by
  have herr : fs.error_if_in_vfs p = Except.error FsError.NotSupported := by
    simp [EszipFileSystem.error_if_in_vfs, hp]
  refine ⟨?_, rfl, ?_, ?_, ?_, ?_, ?_, ?_, ?_, ?_, ?_, ?_, ?_, ?_, ?_, ?_,
    ?_, ?_, ?_, ?_, ?_, ?_, ?_, ?_, ?_, ?_, ?_, ?_, ?_, ?_, ?_, ?_, ?_, ?_,
    ?_, ?_, ?_, ?_, ?_, ?_, ?_, ?_, ?_⟩ <;>
    cases hq : fs.is_path_within q <;>
      simp [EszipFileSystem.chdir, EszipFileSystem.open_async,
        EszipFileSystem.mkdir_sync, EszipFileSystem.mkdir_async,
        EszipFileSystem.chmod_sync, EszipFileSystem.chmod_async,
        EszipFileSystem.chown_sync, EszipFileSystem.chown_async,
        EszipFileSystem.remove_sync, EszipFileSystem.remove_async,
        EszipFileSystem.stat_sync, EszipFileSystem.stat_async,
        EszipFileSystem.lstat_sync, EszipFileSystem.lstat_async,
        EszipFileSystem.realpath_sync, EszipFileSystem.realpath_async,
        EszipFileSystem.read_dir_sync, EszipFileSystem.read_dir_async,
        EszipFileSystem.read_link_sync, EszipFileSystem.read_link_async,
        EszipFileSystem.truncate_sync, EszipFileSystem.truncate_async,
        EszipFileSystem.utime_sync, EszipFileSystem.utime_async,
        EszipFileSystem.cp_sync, EszipFileSystem.cp_async,
        EszipFileSystem.rename_sync, EszipFileSystem.rename_async,
        EszipFileSystem.link_sync, EszipFileSystem.link_async,
        EszipFileSystem.symlink_sync, EszipFileSystem.symlink_async,
        EszipFileSystem.copy_file_sync, EszipFileSystem.copy_file_async,
        EszipFileSystem.error_if_in_vfs, herr, hp, hq]

/-- C10 witness: a concrete instantiation of the amended shielding theorem
at the example overlay and a path under its root. -/
theorem eszip_vfs_shielding_amended_witness :
    EszipFileSystem.chdir vfsFsExample ["root", "x"] =
      FsOutcome.err FsError.NotSupported :=
  (eszip_vfs_shielding_amended vfsFsExample ["root", "x"] ["q"] (by decide)
    ⟨false, false, false, false, false, false⟩ false 0 none none none 0 0 0 0
    0).1
